import Mathlib

/-!
# Verification of `k8s_aws_secrets_sync` (`src/main.rs`)

Shallow embedding of the tag-driven discovery-and-transform pipeline of the
one-shot AWS-Secrets-Manager → Kubernetes secret synchronisation job, together
with proofs and refutations of the specification claims about it.

Modelling conventions:
* Rust `Option<T>` becomes `Option T`; a call to `Option::unwrap` on `none`
  is a panic, modelled by `Except RustPanic`.
* Fallible external calls (`list_secrets`, `get_secret_value`,
  `kube::Client::try_default`, `Api::patch`) are oracles passed in as
  function arguments; a `?` on their result propagates a `RunErr.propagated`.
* `HashMap<String, String>` values are modelled as association lists
  `List (String × String)`; the iteration order of the model is the list
  order (a Rust `HashMap` has an unspecified order, which the claims treat
  as sets wherever it is observable).
* Bytes are `Nat` values `< 256`; the UTF-8 bytes of a string are obtained
  from core's `String.utf8EncodeChar`.
-/

/-- A panic raised by `Option::unwrap` on a `None` value. -/
inductive RustPanic where
  | unwrapNone
  deriving DecidableEq, Repr

/-- An AWS tag: `aws_sdk_secretsmanager::types::Tag` has optional key and value. -/
structure Tag where
  key : Option String
  value : Option String
  deriving DecidableEq, Repr

/-- The fields of `aws_sdk_secretsmanager::types::SecretListEntry` that
`main.rs` reads: the secret's name and its tag list (both optional). -/
structure SecretListEntry where
  name : Option String
  tags : Option (List Tag)
  deriving DecidableEq, Repr

/-- The command-line arguments (`struct Args`): the three configured tag keys. -/
structure Args where
  namespace_tag : String
  secret_name_tag : String
  filename_tag : String
  deriving DecidableEq, Repr

/-- `Option::unwrap`: produce the value or panic. -/
def unwrapO : Option α → Except RustPanic α
  | some a => .ok a
  | none => .error .unwrapNone

/-- Rust's `str::split` with a `char` separator, on the character list: a
separator occurrence ends the current piece, so `n` occurrences yield
`n + 1` pieces; consecutive separators yield empty pieces and the empty
string yields `[""]`. -/
def splitCharList (sep : Char) : List Char → List String
  | [] => [""]
  | c :: cs =>
      if c = sep then "" :: splitCharList sep cs
      else
        match splitCharList sep cs with
        | [] => [⟨[c]⟩]
        | s :: ss => ⟨c :: s.data⟩ :: ss

/-- Rust's `value.split(sep)` collected into a vector of strings. -/
def rustSplit (sep : Char) (s : String) : List String := splitCharList sep s.data

/-- `tags.iter().find(|tag| tag.key.as_ref().unwrap() == k)`: scan the tag
list left to right; unwrap each examined tag's key (panicking if it is
absent) and stop at the first tag whose key equals `k`. -/
def findTagE (k : String) : List Tag → Except RustPanic (Option Tag)
  | [] => .ok none
  | t :: ts => do
    let key ← unwrapO t.key
    if key = k then .ok (some t) else findTagE k ts

/-- `get_name_from_aws_secret`: the value of the first tag whose key equals
`secret_name_tag`; panics if the tag list is absent, if the tag is missing,
or if its value is absent. -/
def get_name_from_aws_secret (secret : SecretListEntry) (secret_name_tag : String) :
    Except RustPanic String := do
  let tags ← unwrapO secret.tags
  let found ← findTagE secret_name_tag tags
  let tag ← unwrapO found
  let v ← unwrapO tag.value
  pure v

/-- `get_namespaces_from_aws_secret`: the value of the first tag whose key
equals `namespace_tag`, split on the single-space character
(`value.split(' ')`, i.e. `rustSplit ' '`); panics exactly as
`get_name_from_aws_secret` does. -/
def get_namespaces_from_aws_secret (secret : SecretListEntry) (namespace_tag : String) :
    Except RustPanic (List String) := do
  let tags ← unwrapO secret.tags
  let found ← findTagE namespace_tag tags
  let tag ← unwrapO found
  let v ← unwrapO tag.value
  pure (rustSplit ' ' v)

/-- `get_filename_from_aws_secret`: `some value` of the first tag whose key
equals `filename_tag`, or `none` when no tag matches (a normal outcome);
still panics when the tag list itself is absent, and when a matching tag has
no value. -/
def get_filename_from_aws_secret (secret : SecretListEntry) (filename_tag : String) :
    Except RustPanic (Option String) := do
  let tags ← unwrapO secret.tags
  let found ← findTagE filename_tag tags
  match found with
  | none => pure none
  | some tag => do
    let v ← unwrapO tag.value
    pure (some v)

/-! ## Base64 (the `base64` crate's `general_purpose::STANDARD` engine) -/

/-- The UTF-8 bytes of a string, as naturals below 256. -/
def strBytes (s : String) : List Nat :=
  (s.data.flatMap String.utf8EncodeChar).map UInt8.toNat

/-- The standard base64 alphabet. -/
def b64Alphabet : List Char :=
  "ABCDEFGHIJKLMNOPQRSTUVWXYZabcdefghijklmnopqrstuvwxyz0123456789+/".data

/-- The alphabet character for a 6-bit group. -/
def b64Char (n : Nat) : Char := b64Alphabet.getD n 'A'

/-- The 6-bit value of an alphabet character, scanning the alphabet. -/
def charIndexIn (c : Char) : List Char → Nat → Option Nat
  | [], _ => none
  | a :: as, i => if a = c then some i else charIndexIn c as (i + 1)

/-- The 6-bit value of a standard-base64 alphabet character. -/
def b64Index (c : Char) : Option Nat := charIndexIn c b64Alphabet 0

/-- Standard base64 with padding: encode bytes three at a time into four
alphabet characters, padding a trailing group of one or two bytes with
`'='`. -/
def base64EncodeBytes : List Nat → List Char
  | [] => []
  | [b1] => [b64Char (b1 / 4), b64Char (b1 % 4 * 16), '=', '=']
  | [b1, b2] => [b64Char (b1 / 4), b64Char (b1 % 4 * 16 + b2 / 16),
      b64Char (b2 % 16 * 4), '=']
  | b1 :: b2 :: b3 :: rest =>
      b64Char (b1 / 4) :: b64Char (b1 % 4 * 16 + b2 / 16) ::
      b64Char (b2 % 16 * 4 + b3 / 64) :: b64Char (b3 % 64) ::
      base64EncodeBytes rest

/-- Decode the final four-character group of a base64 string, which may be
padded with one or two `'='` characters. -/
def b64DecodeGroup (c1 c2 c3 c4 : Char) : Option (List Nat) := do
  let n1 ← b64Index c1
  let n2 ← b64Index c2
  if c3 = '=' then
    if c4 = '=' then some [n1 * 4 + n2 / 16] else none
  else do
    let n3 ← b64Index c3
    if c4 = '=' then some [n1 * 4 + n2 / 16, n2 % 16 * 16 + n3 / 4]
    else do
      let n4 ← b64Index c4
      some [n1 * 4 + n2 / 16, n2 % 16 * 16 + n3 / 4, n3 % 4 * 64 + n4]

/-- Standard base64 decoding (with padding), the inverse reading of
`base64EncodeBytes`: `none` on any character outside the alphabet or any
malformed length.  Padding may only occur in the final group. -/
def base64DecodeBytes : List Char → Option (List Nat)
  | [] => some []
  | [c1, c2, c3, c4] => b64DecodeGroup c1 c2 c3 c4
  | c1 :: c2 :: c3 :: c4 :: rest => do
      let n1 ← b64Index c1
      let n2 ← b64Index c2
      let n3 ← b64Index c3
      let n4 ← b64Index c4
      let tail ← base64DecodeBytes rest
      some ((n1 * 4 + n2 / 16) :: (n2 % 16 * 16 + n3 / 4) :: (n3 % 4 * 64 + n4) :: tail)
  | _ => none

/-- `engine.encode(s.as_bytes())`: base64 of the UTF-8 bytes, as a string. -/
def b64encodeStr (s : String) : String := ⟨base64EncodeBytes (strBytes s)⟩

/-- Base64-decode a string to its byte sequence. -/
def b64decodeStrBytes (t : String) : Option (List Nat) := base64DecodeBytes t.data

/-! ## Payload transformers -/

/-- `create_datamap_from_aws_secret`: base64-encode every value of the
payload map independently, keeping the keys. -/
def create_datamap_from_aws_secret (secret_value : List (String × String)) :
    List (String × String) :=
  secret_value.map (fun kv => (kv.1, b64encodeStr kv.2))

/-- The blob built by `create_filesecret_from_aws_secret`'s fold: one
`key=value\n` line per payload entry, concatenated in iteration order. -/
def filesecretBlob (secrets : List (String × String)) : String :=
  secrets.foldl (fun res kv => res ++ kv.1 ++ "=" ++ kv.2 ++ "\n") ""

/-- `create_filesecret_from_aws_secret`: a single-entry map from `filename`
to the base64 encoding of the whole `key=value\n` blob. -/
def create_filesecret_from_aws_secret (secrets : List (String × String))
    (filename : String) : List (String × String) :=
  [(filename, b64encodeStr (filesecretBlob secrets))]

/-! ## Sync orchestrator (`main`)

`main` is modelled as a function of its external oracles:
* `fetch` — `client.get_secret_value().secret_id(k).send()`: either an error
  (propagated by `?`) or a response whose `secret_string` field is optional;
* `parse` — `serde_json::from_str::<HashMap<String, String>>`: `none` on a
  string that is not a JSON object mapping field names to string values
  (the `Result::Err` case, unwrapped by the code);
* `tryDefault` — `kube::Client::try_default()`, run once per secret;
* `apply` — `secrets.patch(name, params, patch)` for one namespace: `true`
  on `Ok`, `false` on `Err` (both arms only log).
The run result is the ordered trace of attempted `patch` calls, paired with
the abort that cut the run short, if any.  Exit status is 0 exactly when the
abort component is `none`. -/

/-- How a run dies early: a Rust panic (an `unwrap` failure), or an error
propagated out of `main` by the `?` operator. -/
inductive RunErr where
  | panicked
  | propagated (msg : String)
  deriving DecidableEq, Repr

/-- One attempted `patch` call: destination namespace, secret name, data
map, and whether the apply succeeded. -/
structure ApplyEvent where
  namespace_ : String
  secretName : String
  dataMap : List (String × String)
  ok : Bool
  deriving DecidableEq, Repr

/-- Lift a panicking computation into the run monad. -/
def liftPanic : Except RustPanic α → Except RunErr α
  | .ok a => .ok a
  | .error _ => .error .panicked

/-- Lift an `Option::unwrap` into the run monad. -/
def unwrapR (o : Option α) : Except RunErr α := liftPanic (unwrapO o)

/-- Lift a `?`-propagated external result into the run monad. -/
def liftQ : Except String α → Except RunErr α
  | .ok a => .ok a
  | .error e => .error (.propagated e)

/-- The inner `for namespace in namespaces` loop: one `patch` call per
namespace, in order; `Ok` and `Err` results are both logged and the loop
continues. -/
def processNamespaces (apply : String → String → List (String × String) → Bool)
    (secret_name : String) (data_map : List (String × String)) :
    List String → List ApplyEvent
  | [] => []
  | ns :: rest =>
      ⟨ns, secret_name, data_map, apply ns secret_name data_map⟩ ::
      processNamespaces apply secret_name data_map rest

/-- The straight-line part of `main`'s `for secret in secrets` loop body,
before the namespace loop (lines 65–81 of `main.rs`): log-unwrap of the
name, tag extraction, fetch, parse, data-map construction and kube-client
construction, in source order.  Produces the secret name, the data map and
the namespace list the inner loop runs over. -/
def processSecretPre (args : Args)
    (fetch : String → Except String (Option String))
    (parse : String → Option (List (String × String)))
    (tryDefault : Except String Unit)
    (secret : SecretListEntry) :
    Except RunErr (String × List (String × String) × List String) := do
  let _ ← unwrapR secret.name
  let secret_name ← liftPanic (get_name_from_aws_secret secret args.secret_name_tag)
  let namespaces ← liftPanic (get_namespaces_from_aws_secret secret args.namespace_tag)
  let aws_key ← unwrapR secret.name
  let response ← liftQ (fetch aws_key)
  let secret_string ← unwrapR response
  let secret_value ← unwrapR (parse secret_string)
  let data_map ←
    match liftPanic (get_filename_from_aws_secret secret args.filename_tag) with
    | .error e => .error e
    | .ok (some filename) => pure (create_filesecret_from_aws_secret secret_value filename)
    | .ok none => pure (create_datamap_from_aws_secret secret_value)
  let _ ← liftQ tryDefault
  pure (secret_name, data_map, namespaces)

/-- The body of `main`'s `for secret in secrets` loop for one secret: the
straight-line part, then the namespace loop.  Any `unwrap` panic or `?`
error aborts with a `RunErr`; otherwise the secret's apply events are
returned. -/
def processSecret (args : Args)
    (fetch : String → Except String (Option String))
    (parse : String → Option (List (String × String)))
    (tryDefault : Except String Unit)
    (apply : String → String → List (String × String) → Bool)
    (secret : SecretListEntry) : Except RunErr (List ApplyEvent) :=
  (processSecretPre args fetch parse tryDefault secret).map fun x =>
    processNamespaces apply x.1 x.2.1 x.2.2

/-- The outer loop over discovered secrets: the trace of apply events made
so far, and the first abort, which stops all later secrets. -/
def runSecrets (args : Args)
    (fetch : String → Except String (Option String))
    (parse : String → Option (List (String × String)))
    (tryDefault : Except String Unit)
    (apply : String → String → List (String × String) → Bool) :
    List SecretListEntry → List ApplyEvent × Option RunErr
  | [] => ([], none)
  | s :: rest =>
      match processSecret args fetch parse tryDefault apply s with
      | .error e => ([], some e)
      | .ok evs =>
          let r := runSecrets args fetch parse tryDefault apply rest
          (evs ++ r.1, r.2)

/-- The whole of `main`: discovery (`list_secrets`, whose `secret_list`
field is defaulted to the empty list when absent; a transport error is
propagated by `?` and is run-fatal), then the loop over secrets. -/
def mainRun (args : Args)
    (discover : Except String (Option (List SecretListEntry)))
    (fetch : String → Except String (Option String))
    (parse : String → Option (List (String × String)))
    (tryDefault : Except String Unit)
    (apply : String → String → List (String × String) → Bool) :
    List ApplyEvent × Option RunErr :=
  match discover with
  | .error e => ([], some (.propagated e))
  | .ok olist => runSecrets args fetch parse tryDefault apply (olist.getD [])

/-- Exit status of the process: 0 when `main` returned `Ok(())` (no abort),
nonzero otherwise (an `Err` return or a panic). -/
def exitIsZero (r : List ApplyEvent × Option RunErr) : Bool := r.2.isNone

/-! ## Lemmas about base64 -/

theorem b64Index_b64Char_all : ∀ n < 64, b64Index (b64Char n) = some n := by decide

theorem b64Char_ne_pad_all : ∀ n < 64, b64Char n ≠ '=' := by decide

theorem b64Index_b64Char (n : Nat) (h : n < 64) : b64Index (b64Char n) = some n :=
  b64Index_b64Char_all n h

theorem b64Char_ne_pad (n : Nat) (h : n < 64) : b64Char n ≠ '=' :=
  b64Char_ne_pad_all n h

theorem base64EncodeBytes_shape (bs : List Nat) (h : bs ≠ []) :
    ∃ d1 d2 d3 d4 ds, base64EncodeBytes bs = d1 :: d2 :: d3 :: d4 :: ds := by
  match bs with
  | [] => exact absurd rfl h
  | [b1] => exact ⟨_, _, _, _, _, rfl⟩
  | [b1, b2] => exact ⟨_, _, _, _, _, rfl⟩
  | b1 :: b2 :: b3 :: rest => exact ⟨_, _, _, _, _, rfl⟩

/-- Decoding inverts encoding on any byte list. -/
theorem base64DecodeBytes_encode (bs : List Nat) (h : ∀ b ∈ bs, b < 256) :
    base64DecodeBytes (base64EncodeBytes bs) = some bs := by
  induction bs using base64EncodeBytes.induct with
  | case1 => rfl
  | case2 b1 =>
      have hb1 : b1 < 256 := h b1 (by simp)
      simp only [base64EncodeBytes, base64DecodeBytes, b64DecodeGroup]
      rw [b64Index_b64Char (b1 / 4) (by omega),
        b64Index_b64Char (b1 % 4 * 16) (by omega)]
      simp
      omega
  | case3 b1 b2 =>
      have hb1 : b1 < 256 := h b1 (by simp)
      have hb2 : b2 < 256 := h b2 (by simp)
      simp only [base64EncodeBytes, base64DecodeBytes, b64DecodeGroup]
      rw [b64Index_b64Char (b1 / 4) (by omega),
        b64Index_b64Char (b1 % 4 * 16 + b2 / 16) (by omega),
        b64Index_b64Char (b2 % 16 * 4) (by omega)]
      have hne3 : b64Char (b2 % 16 * 4) ≠ '=' := b64Char_ne_pad (b2 % 16 * 4) (by omega)
      simp [hne3]
      omega
  | case4 b1 b2 b3 rest ih =>
      have hb1 : b1 < 256 := h b1 (by simp)
      have hb2 : b2 < 256 := h b2 (by simp)
      have hb3 : b3 < 256 := h b3 (by simp)
      have ih' := ih (fun b hb => h b (by simp [hb]))
      rcases Decidable.em (rest = []) with hrest | hrest
      · subst hrest
        simp only [base64EncodeBytes, base64DecodeBytes, b64DecodeGroup]
        rw [b64Index_b64Char (b1 / 4) (by omega),
          b64Index_b64Char (b1 % 4 * 16 + b2 / 16) (by omega),
          b64Index_b64Char (b2 % 16 * 4 + b3 / 64) (by omega),
          b64Index_b64Char (b3 % 64) (by omega)]
        have hne3 : b64Char (b2 % 16 * 4 + b3 / 64) ≠ '=' :=
          b64Char_ne_pad (b2 % 16 * 4 + b3 / 64) (by omega)
        have hne4 : b64Char (b3 % 64) ≠ '=' := b64Char_ne_pad (b3 % 64) (by omega)
        simp [hne3, hne4]
        omega
      · obtain ⟨d1, d2, d3, d4, ds, hsh⟩ := base64EncodeBytes_shape rest hrest
        rw [hsh] at ih'
        simp only [base64EncodeBytes]
        rw [hsh]
        simp only [base64DecodeBytes]
        rw [b64Index_b64Char (b1 / 4) (by omega),
          b64Index_b64Char (b1 % 4 * 16 + b2 / 16) (by omega),
          b64Index_b64Char (b2 % 16 * 4 + b3 / 64) (by omega),
          b64Index_b64Char (b3 % 64) (by omega), ih']
        simp
        omega

/-- Every UTF-8 byte of a string is below 256. -/
theorem strBytes_lt (s : String) : ∀ b ∈ strBytes s, b < 256 := by
  intro b hb
  simp only [strBytes, List.mem_map] at hb
  obtain ⟨u, _, rfl⟩ := hb
  exact u.toNat_lt

/-- Round trip at the string level: decoding `engine.encode(s.as_bytes())`
recovers exactly the UTF-8 bytes of `s`. -/
theorem b64decodeStrBytes_encode (s : String) :
    b64decodeStrBytes (b64encodeStr s) = some (strBytes s) :=
  base64DecodeBytes_encode (strBytes s) (strBytes_lt s)

/-! ## Newline-splitting of decoded blobs (for the file-secret round trip) -/

/-- Split a byte sequence on a separator byte: `n` separator occurrences
yield `n + 1` pieces. -/
def splitBytesOn (sep : Nat) : List Nat → List (List Nat)
  | [] => [[]]
  | b :: bs =>
      if b = sep then [] :: splitBytesOn sep bs
      else
        match splitBytesOn sep bs with
        | [] => [[b]]
        | l :: ls => (b :: l) :: ls

/-- The lines of a byte sequence: split on the newline byte 10, except that
a trailing newline produces no final empty line (Rust's `str::lines`
reading of "splitting on newline"). -/
def byteLines (bs : List Nat) : List (List Nat) :=
  let parts := splitBytesOn 10 bs
  if parts.getLast? = some [] then parts.dropLast else parts

/-- The `key=value` line of one payload entry, as UTF-8 bytes (61 is
`'='`). -/
def entryLineBytes (kv : String × String) : List Nat :=
  strBytes kv.1 ++ 61 :: strBytes kv.2

theorem splitBytesOn_line (l rest : List Nat) (h : 10 ∉ l) :
    splitBytesOn 10 (l ++ 10 :: rest) = l :: splitBytesOn 10 rest := by
  induction l with
  | nil => simp [splitBytesOn]
  | cons b bs ih =>
      simp only [List.mem_cons, not_or] at h
      simp only [List.cons_append, splitBytesOn, List.append_eq]
      rw [if_neg (fun hb => h.1 (by omega)), ih h.2]

theorem splitBytesOn_flatten (lines : List (List Nat)) (h : ∀ l ∈ lines, 10 ∉ l) :
    splitBytesOn 10 ((lines.map (fun l => l ++ [10])).flatten) = lines ++ [[]] := by
  induction lines with
  | nil => simp [splitBytesOn]
  | cons l ls ih =>
      have hx : (l ++ [10]) ++ ((ls.map (fun l => l ++ [10])).flatten)
          = l ++ 10 :: ((ls.map (fun l => l ++ [10])).flatten) := by simp
      simp only [List.map_cons, List.flatten_cons]
      rw [hx, splitBytesOn_line _ _ (h l (by simp)),
        ih (fun l' hl' => h l' (by simp [hl']))]
      simp

/-- Reading back the lines of a newline-terminated concatenation of
newline-free lines gives back exactly those lines. -/
theorem byteLines_flatten (lines : List (List Nat)) (h : ∀ l ∈ lines, 10 ∉ l) :
    byteLines ((lines.map (fun l => l ++ [10])).flatten) = lines := by
  unfold byteLines
  rw [splitBytesOn_flatten lines h]
  simp

/-- `strBytes` distributes over string append. -/
theorem strBytes_append (s t : String) :
    strBytes (s ++ t) = strBytes s ++ strBytes t := by
  simp [strBytes, String.data_append]

theorem strBytes_equalsSign : strBytes "=" = [61] := by decide

theorem strBytes_newline : strBytes "\n" = [10] := by decide

/-- The bytes of the `filesecretBlob` fold: one `key=value` line and one
newline byte per entry, in iteration order. -/
theorem strBytes_blob_aux (m : List (String × String)) (init : String) :
    strBytes (m.foldl (fun res kv => res ++ kv.1 ++ "=" ++ kv.2 ++ "\n") init)
      = strBytes init ++ ((m.map entryLineBytes).map (fun l => l ++ [10])).flatten := by
  induction m generalizing init with
  | nil => simp
  | cons kv tl ih =>
      simp only [List.foldl_cons, List.map_cons, List.flatten_cons]
      rw [ih]
      simp [strBytes_append, entryLineBytes, strBytes_equalsSign, strBytes_newline]

theorem strBytes_filesecretBlob (m : List (String × String)) :
    strBytes (filesecretBlob m)
      = ((m.map entryLineBytes).map (fun l => l ++ [10])).flatten := by
  have h := strBytes_blob_aux m ""
  simpa [filesecretBlob] using h

/-! ## Lemmas about the tag extractors -/

/-- When no tag's key equals `k`, `find` either scans the whole list and
returns `none`, or panics on a tag without a key. -/
theorem findTagE_not_found (k : String) (ts : List Tag)
    (h : ∀ t ∈ ts, t.key ≠ some k) :
    findTagE k ts = .ok none ∨ findTagE k ts = .error .unwrapNone := by
  induction ts with
  | nil => left; rfl
  | cons t rest ih =>
      rcases hk : t.key with _ | k'
      · right; simp [findTagE, unwrapO, hk, Bind.bind, Except.bind]
      · have hne : k' ≠ k := by
          intro hkk; exact h t (by simp) (by rw [hk, hkk])
        have := ih (fun t' ht' => h t' (by simp [ht']))
        simpa [findTagE, unwrapO, hk, hne, Bind.bind, Except.bind] using this

/-- `find` returns the first matching tag: any prefix of non-matching
(keyed) tags is skipped and the scan stops at `tg`, ignoring everything
after it. -/
theorem findTagE_first_match (k : String) (pre post : List Tag) (tg : Tag)
    (hpre : ∀ t ∈ pre, ∃ k', t.key = some k' ∧ k' ≠ k)
    (htg : tg.key = some k) :
    findTagE k (pre ++ tg :: post) = .ok (some tg) := by
  induction pre with
  | nil => simp [findTagE, unwrapO, htg, Bind.bind, Except.bind]
  | cons t rest ih =>
      obtain ⟨k', hk', hne⟩ := hpre t (by simp)
      have := ih (fun t' ht' => hpre t' (by simp [ht']))
      simpa [findTagE, unwrapO, hk', hne, Bind.bind, Except.bind] using this

/-- `get_name_from_aws_secret` panics when no tag carries the configured
secret-name key. -/
theorem get_name_missing (s : SecretListEntry) (k : String) (ts : List Tag)
    (hts : s.tags = some ts) (h : ∀ t ∈ ts, t.key ≠ some k) :
    get_name_from_aws_secret s k = .error .unwrapNone := by
  rcases findTagE_not_found k ts h with hf | hf <;>
    simp [get_name_from_aws_secret, hts, unwrapO, hf, Bind.bind, Except.bind]

/-- `get_namespaces_from_aws_secret` panics when no tag carries the
configured namespace key. -/
theorem get_namespaces_missing (s : SecretListEntry) (k : String) (ts : List Tag)
    (hts : s.tags = some ts) (h : ∀ t ∈ ts, t.key ≠ some k) :
    get_namespaces_from_aws_secret s k = .error .unwrapNone := by
  rcases findTagE_not_found k ts h with hf | hf <;>
    simp [get_namespaces_from_aws_secret, hts, unwrapO, hf, Bind.bind, Except.bind]

/-- `get_name_from_aws_secret` on a found tag yields its value. -/
theorem get_name_found (s : SecretListEntry) (k v : String) (ts : List Tag) (tg : Tag)
    (hts : s.tags = some ts) (hf : findTagE k ts = .ok (some tg))
    (hv : tg.value = some v) :
    get_name_from_aws_secret s k = .ok v := by
  simp [get_name_from_aws_secret, hts, hf, hv, unwrapO, Bind.bind, Except.bind, Pure.pure, Except.pure]

/-- `get_namespaces_from_aws_secret` on a found tag yields its value split
on single spaces. -/
theorem get_namespaces_found (s : SecretListEntry) (k v : String) (ts : List Tag) (tg : Tag)
    (hts : s.tags = some ts) (hf : findTagE k ts = .ok (some tg))
    (hv : tg.value = some v) :
    get_namespaces_from_aws_secret s k = .ok (rustSplit ' ' v) := by
  simp [get_namespaces_from_aws_secret, hts, hf, hv, unwrapO, Bind.bind, Except.bind, Pure.pure, Except.pure]

/-- `get_filename_from_aws_secret` on a found tag yields `some` of its
value. -/
theorem get_filename_found (s : SecretListEntry) (k v : String) (ts : List Tag) (tg : Tag)
    (hts : s.tags = some ts) (hf : findTagE k ts = .ok (some tg))
    (hv : tg.value = some v) :
    get_filename_from_aws_secret s k = .ok (some v) := by
  simp [get_filename_from_aws_secret, hts, hf, hv, unwrapO, Bind.bind, Except.bind, Pure.pure, Except.pure]

/-! ## Lemmas about the orchestrator -/

/-- The attempt made by an apply event, forgetting its success flag. -/
def applyAttempt (e : ApplyEvent) : String × String × List (String × String) :=
  (e.namespace_, e.secretName, e.dataMap)

/-- The namespace loop emits exactly one apply event per destination
namespace, in list order, no matter what the apply oracle answers. -/
theorem processNamespaces_attempts
    (apply : String → String → List (String × String) → Bool)
    (n : String) (d : List (String × String)) (l : List String) :
    (processNamespaces apply n d l).map applyAttempt = l.map (fun ns => (ns, n, d)) := by
  induction l with
  | nil => rfl
  | cons x xs ih => simp [processNamespaces, applyAttempt, ih]

/-- The namespaces attempted by the namespace loop are the namespace list
itself, in order. -/
theorem processNamespaces_namespaces
    (apply : String → String → List (String × String) → Bool)
    (n : String) (d : List (String × String)) (l : List String) :
    (processNamespaces apply n d l).map ApplyEvent.namespace_ = l := by
  induction l with
  | nil => rfl
  | cons x xs ih => simp [processNamespaces, ih]

/-- Processing one secret under two different apply oracles: the abort (if
any) is the same, and the attempted applies are the same. -/
theorem processSecret_apply_congr (args : Args) (f : String → Except String (Option String))
    (p : String → Option (List (String × String))) (t : Except String Unit)
    (a1 a2 : String → String → List (String × String) → Bool) (s : SecretListEntry) :
    (processSecret args f p t a1 s).map (List.map applyAttempt)
      = (processSecret args f p t a2 s).map (List.map applyAttempt) := by
  unfold processSecret
  cases processSecretPre args f p t s with
  | error e => rfl
  | ok x => simp [Except.map, processNamespaces_attempts]

/-- A whole run under two different apply oracles: the abort is the same
and the attempted applies are the same. -/
theorem runSecrets_apply_congr (args : Args) (f : String → Except String (Option String))
    (p : String → Option (List (String × String))) (t : Except String Unit)
    (a1 a2 : String → String → List (String × String) → Bool)
    (secrets : List SecretListEntry) :
    (runSecrets args f p t a1 secrets).2 = (runSecrets args f p t a2 secrets).2 ∧
    (runSecrets args f p t a1 secrets).1.map applyAttempt
      = (runSecrets args f p t a2 secrets).1.map applyAttempt := by
  induction secrets with
  | nil => exact ⟨rfl, rfl⟩
  | cons s rest ih =>
      simp only [runSecrets]
      cases hpre : processSecretPre args f p t s with
      | error e => simp [processSecret, hpre, Except.map]
      | ok x =>
          simp [processSecret, hpre, Except.map, processNamespaces_attempts, ih.1, ih.2]

/-- Splitting a run at a prefix that completes without abort: the trace is
the prefix's trace followed by the suffix's trace, and the abort is the
suffix's. -/
theorem runSecrets_append (args : Args) (f : String → Except String (Option String))
    (p : String → Option (List (String × String))) (t : Except String Unit)
    (a : String → String → List (String × String) → Bool)
    (xs ys : List SecretListEntry)
    (hxs : (runSecrets args f p t a xs).2 = none) :
    runSecrets args f p t a (xs ++ ys)
      = ((runSecrets args f p t a xs).1 ++ (runSecrets args f p t a ys).1,
         (runSecrets args f p t a ys).2) := by
  induction xs with
  | nil => simp [runSecrets]
  | cons s rest ih =>
      simp only [runSecrets, List.cons_append] at hxs ⊢
      cases hps : processSecret args f p t a s with
      | error e => rw [hps] at hxs; simp at hxs
      | ok evs =>
          rw [hps] at hxs; simp at hxs
          simp [ih hxs]

/-- A secret whose tag set lacks the secret-name tag or the namespace tag
panics in the straight-line part of its loop body. -/
theorem processSecretPre_missing_tag (args : Args)
    (f : String → Except String (Option String))
    (p : String → Option (List (String × String))) (t : Except String Unit)
    (s : SecretListEntry) (ts : List Tag) (hts : s.tags = some ts)
    (hmiss : (∀ tg ∈ ts, tg.key ≠ some args.secret_name_tag) ∨
             (∀ tg ∈ ts, tg.key ≠ some args.namespace_tag)) :
    processSecretPre args f p t s = .error .panicked := by
  unfold processSecretPre
  cases hn : s.name with
  | none => simp [hn, unwrapR, liftPanic, unwrapO, Bind.bind, Except.bind]
  | some nm =>
    rcases hmiss with hm | hm
    · have h1 := get_name_missing s args.secret_name_tag ts hts hm
      simp [hn, unwrapR, liftPanic, unwrapO, h1, Bind.bind, Except.bind]
    · cases hg : get_name_from_aws_secret s args.secret_name_tag with
      | error e =>
          cases e
          simp [hn, unwrapR, liftPanic, unwrapO, hg, Bind.bind, Except.bind]
      | ok v =>
          have h2 := get_namespaces_missing s args.namespace_tag ts hts hm
          simp [hn, unwrapR, liftPanic, unwrapO, hg, h2, Bind.bind, Except.bind]

/-- A secret whose fetch fails propagates that error out of its loop body
(the code's `?` on `get_secret_value`). -/
theorem processSecretPre_fetch_error (args : Args)
    (f : String → Except String (Option String))
    (p : String → Option (List (String × String))) (t : Except String Unit)
    (s : SecretListEntry) (key n e : String) (l : List String)
    (hname : s.name = some key)
    (hn : get_name_from_aws_secret s args.secret_name_tag = .ok n)
    (hl : get_namespaces_from_aws_secret s args.namespace_tag = .ok l)
    (hfetch : f key = .error e) :
    processSecretPre args f p t s = .error (.propagated e) := by
  unfold processSecretPre
  simp [hname, hn, hl, hfetch, unwrapR, liftPanic, liftQ, unwrapO, Bind.bind, Except.bind]

/-- A secret whose fetched payload does not parse as a JSON object of
strings panics in its loop body (the code's `unwrap` on `serde_json`). -/
theorem processSecretPre_parse_error (args : Args)
    (f : String → Except String (Option String))
    (p : String → Option (List (String × String))) (t : Except String Unit)
    (s : SecretListEntry) (key n payload : String) (l : List String)
    (hname : s.name = some key)
    (hn : get_name_from_aws_secret s args.secret_name_tag = .ok n)
    (hl : get_namespaces_from_aws_secret s args.namespace_tag = .ok l)
    (hfetch : f key = .ok (some payload))
    (hparse : p payload = none) :
    processSecretPre args f p t s = .error .panicked := by
  unfold processSecretPre
  simp [hname, hn, hl, hfetch, hparse, unwrapR, liftPanic, liftQ, unwrapO,
    Bind.bind, Except.bind]

/-- A secret whose straight-line part aborts kills the whole remaining run:
no apply event is recorded and the abort becomes the run's abort. -/
theorem runSecrets_abort_head (args : Args)
    (f : String → Except String (Option String))
    (p : String → Option (List (String × String))) (t : Except String Unit)
    (a : String → String → List (String × String) → Bool)
    (s : SecretListEntry) (rest : List SecretListEntry) (e : RunErr)
    (h : processSecretPre args f p t s = .error e) :
    runSecrets args f p t a (s :: rest) = ([], some e) := by
  simp [runSecrets, processSecret, h, Except.map]

/-! ## The claims -/

/-- **C4** (confirmed): for a secret whose namespace tag is present with
value `v`, the destination namespace list is exactly `v` split on the
single-space character, left to right: `"a b c"` gives `["a","b","c"]` and
`"a  b"` gives `["a","","b"]` (the empty token passes through); and the
namespace loop issues its apply attempts in exactly that split order. -/
theorem claim_C4_split_order (s : SecretListEntry) (k v : String) (ts : List Tag)
    (tg : Tag) (hts : s.tags = some ts) (hf : findTagE k ts = .ok (some tg))
    (hv : tg.value = some v) :
    get_namespaces_from_aws_secret s k = .ok (rustSplit ' ' v) ∧
    rustSplit ' ' "a b c" = ["a", "b", "c"] ∧
    rustSplit ' ' "a  b" = ["a", "", "b"] ∧
    ∀ (apply : String → String → List (String × String) → Bool) (n : String)
      (d : List (String × String)),
      (processNamespaces apply n d (rustSplit ' ' v)).map ApplyEvent.namespace_
        = rustSplit ' ' v :=
  ⟨get_namespaces_found s k v ts tg hts hf hv, by decide, by decide,
   fun a n d => processNamespaces_namespaces a n d _⟩

/-- Witness for C4 at a concrete secret tagged `"a b c"`. -/
theorem claim_C4_witness :
    get_namespaces_from_aws_secret
        ⟨some "s", some [⟨some "nt", some "a b c"⟩]⟩ "nt" = .ok ["a", "b", "c"] := by
  have e : rustSplit ' ' "a b c" = ["a", "b", "c"] := by decide
  have h := (claim_C4_split_order ⟨some "s", some [⟨some "nt", some "a b c"⟩]⟩
      "nt" "a b c" [⟨some "nt", some "a b c"⟩] ⟨some "nt", some "a b c"⟩
      rfl rfl rfl).1
  rw [e] at h
  exact h

/-- **C5** (confirmed): in field-map mode the output has exactly the input's
key sequence, and base64-decoding every output value yields exactly the
UTF-8 bytes of the corresponding original input value, key for key, in both
directions. -/
theorem claim_C5_datamap_roundtrip (m : List (String × String)) :
    (create_datamap_from_aws_secret m).map Prod.fst = m.map Prod.fst ∧
    (∀ k v, (k, v) ∈ m →
      (k, b64encodeStr v) ∈ create_datamap_from_aws_secret m ∧
      b64decodeStrBytes (b64encodeStr v) = some (strBytes v)) ∧
    (∀ q ∈ create_datamap_from_aws_secret m,
      ∃ v, (q.1, v) ∈ m ∧ q.2 = b64encodeStr v ∧
        b64decodeStrBytes q.2 = some (strBytes v)) := by
  refine ⟨?_, ?_, ?_⟩
  · induction m with
    | nil => rfl
    | cons p t ih => simp [create_datamap_from_aws_secret]
  · intro k v hm
    exact ⟨List.mem_map_of_mem _ hm, b64decodeStrBytes_encode v⟩
  · intro q hq
    simp only [create_datamap_from_aws_secret, List.mem_map] at hq
    obtain ⟨p, hp, rfl⟩ := hq
    exact ⟨p.2, hp, rfl, b64decodeStrBytes_encode p.2⟩

/-- Witness for C5 at a concrete two-entry payload. -/
theorem claim_C5_witness :
    (create_datamap_from_aws_secret [("user", "a"), ("pass", "b")]).map Prod.fst
        = [("user", "a"), ("pass", "b")].map Prod.fst ∧
    ("user", b64encodeStr "a") ∈ create_datamap_from_aws_secret
        [("user", "a"), ("pass", "b")] ∧
    b64decodeStrBytes (b64encodeStr "a") = some (strBytes "a") ∧
    b64encodeStr "a" = "YQ==" := by
  obtain ⟨h1, h2, h3⟩ := claim_C5_datamap_roundtrip [("user", "a"), ("pass", "b")]
  obtain ⟨h4, h5⟩ := h2 "user" "a" (by decide)
  exact ⟨h1, h4, h5, by decide⟩

/-- **C7** (confirmed): the run's abort (if any) and the full ordered
sequence of attempted applies are independent of the apply oracle's
answers: an apply failure for one `(secret, namespace)` pair affects
neither the remaining namespaces of that secret nor any later secret;
moreover within one secret the loop attempts every namespace in order, one
event per namespace, whatever the oracle answers. -/
theorem claim_C7_apply_isolation (args : Args)
    (f : String → Except String (Option String))
    (p : String → Option (List (String × String))) (t : Except String Unit)
    (a1 a2 : String → String → List (String × String) → Bool)
    (secrets : List SecretListEntry) (n : String) (d : List (String × String))
    (l : List String) :
    (runSecrets args f p t a1 secrets).2 = (runSecrets args f p t a2 secrets).2 ∧
    (runSecrets args f p t a1 secrets).1.map applyAttempt
      = (runSecrets args f p t a2 secrets).1.map applyAttempt ∧
    (processNamespaces a1 n d l).map applyAttempt = l.map (fun ns => (ns, n, d)) :=
  ⟨(runSecrets_apply_congr args f p t a1 a2 secrets).1,
   (runSecrets_apply_congr args f p t a1 a2 secrets).2,
   processNamespaces_attempts a1 n d l⟩

/-- **C8** (confirmed): with several tags sharing the same key, every one of
the three extractors selects the value of the first matching tag in
iteration order, whatever comes after it. -/
theorem claim_C8_first_match (s : SecretListEntry) (k v : String)
    (pre post : List Tag) (tg : Tag)
    (hts : s.tags = some (pre ++ tg :: post))
    (hpre : ∀ t ∈ pre, ∃ k', t.key = some k' ∧ k' ≠ k)
    (hk : tg.key = some k) (hv : tg.value = some v) :
    get_name_from_aws_secret s k = .ok v ∧
    get_namespaces_from_aws_secret s k = .ok (rustSplit ' ' v) ∧
    get_filename_from_aws_secret s k = .ok (some v) := by
  have hf := findTagE_first_match k pre post tg hpre hk
  exact ⟨get_name_found s k v _ tg hts hf hv,
         get_namespaces_found s k v _ tg hts hf hv,
         get_filename_found s k v _ tg hts hf hv⟩

/-- Witness for C8: two tags share the key `"k"`; the first one's value
`"first"` wins in all three extractors. -/
theorem claim_C8_witness :
    get_name_from_aws_secret ⟨some "s", some [⟨some "other", some "x"⟩,
        ⟨some "k", some "first"⟩, ⟨some "k", some "second"⟩]⟩ "k" = .ok "first" ∧
    get_filename_from_aws_secret ⟨some "s", some [⟨some "other", some "x"⟩,
        ⟨some "k", some "first"⟩, ⟨some "k", some "second"⟩]⟩ "k"
      = .ok (some "first") := by
  have h := claim_C8_first_match ⟨some "s", some [⟨some "other", some "x"⟩,
      ⟨some "k", some "first"⟩, ⟨some "k", some "second"⟩]⟩ "k" "first"
      [⟨some "other", some "x"⟩] [⟨some "k", some "second"⟩]
      ⟨some "k", some "first"⟩ rfl
      (fun t ht => by
        simp only [List.mem_singleton] at ht
        subst ht
        exact ⟨"other", rfl, by decide⟩)
      rfl rfl
  exact ⟨h.1, h.2.2⟩

/-- **C9** (confirmed): the empty payload is not special-cased and never
fails: field-map mode returns the empty map, file-secret mode returns the
single entry mapping the filename to the base64 of the empty string (which
is the empty string). -/
theorem claim_C9_empty_payload :
    create_datamap_from_aws_secret [] = [] ∧
    (∀ filename : String,
      create_filesecret_from_aws_secret [] filename = [(filename, b64encodeStr "")]) ∧
    b64encodeStr "" = "" :=
  ⟨rfl, fun _ => rfl, rfl⟩

/-- **C10** (confirmed): with the tag collection entirely absent all three
extractors panic — including the filename one, whose no-matching-tag result
is otherwise a normal `none`; and a matching tag whose value is absent also
makes each extractor panic rather than default. -/
theorem claim_C10_absent_panics (s sv : SecretListEntry) (k : String)
    (ts : List Tag) (tg : Tag)
    (h : s.tags = none)
    (hts : sv.tags = some ts) (hf : findTagE k ts = .ok (some tg))
    (hv : tg.value = none) :
    (get_name_from_aws_secret s k = .error .unwrapNone ∧
     get_namespaces_from_aws_secret s k = .error .unwrapNone ∧
     get_filename_from_aws_secret s k = .error .unwrapNone) ∧
    (get_name_from_aws_secret sv k = .error .unwrapNone ∧
     get_namespaces_from_aws_secret sv k = .error .unwrapNone ∧
     get_filename_from_aws_secret sv k = .error .unwrapNone) := by
  constructor
  · refine ⟨?_, ?_, ?_⟩ <;>
      simp [get_name_from_aws_secret, get_namespaces_from_aws_secret,
        get_filename_from_aws_secret, h, unwrapO, Bind.bind, Except.bind]
  · refine ⟨?_, ?_, ?_⟩ <;>
      simp [get_name_from_aws_secret, get_namespaces_from_aws_secret,
        get_filename_from_aws_secret, hts, hf, hv, unwrapO, Bind.bind, Except.bind]

/-- Witness for C10: a secret with no tag collection, and one whose only
matching tag has no value. -/
theorem claim_C10_witness :
    get_filename_from_aws_secret ⟨some "x", none⟩ "k" = .error .unwrapNone ∧
    get_filename_from_aws_secret ⟨some "y", some [⟨some "k", none⟩]⟩ "k"
      = .error .unwrapNone := by
  have h := claim_C10_absent_panics ⟨some "x", none⟩
      ⟨some "y", some [⟨some "k", none⟩]⟩ "k" [⟨some "k", none⟩]
      ⟨some "k", none⟩ rfl rfl rfl rfl
  exact ⟨h.1.2.2, h.2.2.2⟩

/-- **C1** is false on the code: a secret lacking the secret-name tag does
not fail with a scoped `MissingTag` while the run continues — the `unwrap`
panics and the whole run aborts.  Here the first secret lacks the
secret-name tag and the second is fully well-formed, yet the run produces
no apply event at all (so the second secret is never processed) and ends in
a panic, not a per-secret error. -/
theorem claim_C1_counterexample :
    runSecrets ⟨"ns", "name", "file"⟩ (fun _ => .ok (some "{}")) (fun _ => some [])
      (.ok ()) (fun _ _ _ => true)
      [⟨some "s1", some [⟨some "ns", some "default"⟩]⟩,
       ⟨some "s2", some [⟨some "name", some "k8sname"⟩, ⟨some "ns", some "default"⟩]⟩]
      = ([], some RunErr.panicked) := by decide

/-- **C1** (corrected): for every discovered secret whose tag set lacks a
tag with key `secret_name_tag`, or lacks one with key `namespace_tag`, the
extraction panics (`unwrap` on `None`) and the panic aborts the entire run
at that secret: no apply event is recorded and no later secret is
processed. -/
theorem claim_C1_missing_tag_aborts (args : Args)
    (f : String → Except String (Option String))
    (p : String → Option (List (String × String))) (t : Except String Unit)
    (a : String → String → List (String × String) → Bool)
    (s : SecretListEntry) (rest : List SecretListEntry) (ts : List Tag)
    (hts : s.tags = some ts)
    (hmiss : (∀ tg ∈ ts, tg.key ≠ some args.secret_name_tag) ∨
             (∀ tg ∈ ts, tg.key ≠ some args.namespace_tag)) :
    runSecrets args f p t a (s :: rest) = ([], some RunErr.panicked) :=
  runSecrets_abort_head args f p t a s rest RunErr.panicked
    (processSecretPre_missing_tag args f p t s ts hts hmiss)

/-- Witness for the corrected C1 at a concrete two-secret run. -/
theorem claim_C1_witness :
    runSecrets ⟨"ns", "name", "file"⟩ (fun _ => .ok (some "{}")) (fun _ => some [])
      (.ok ()) (fun _ _ _ => false)
      [⟨some "w1", some [⟨some "ns", some "default"⟩]⟩,
       ⟨some "w2", some [⟨some "name", some "k8sname"⟩, ⟨some "ns", some "default"⟩]⟩]
      = ([], some RunErr.panicked) :=
  claim_C1_missing_tag_aborts ⟨"ns", "name", "file"⟩ (fun _ => .ok (some "{}"))
    (fun _ => some []) (.ok ()) (fun _ _ _ => false)
    ⟨some "w1", some [⟨some "ns", some "default"⟩]⟩
    [⟨some "w2", some [⟨some "name", some "k8sname"⟩, ⟨some "ns", some "default"⟩]⟩]
    [⟨some "ns", some "default"⟩] rfl (.inl (by decide))

/-- **C2** is false on the code: the `?` on `get_secret_value` propagates a
fetch failure out of `main`, aborting the run.  With three well-formed
secrets and a fetch failure on the second, only the first is applied, the
third is never processed, and the exit status is non-zero. -/
theorem claim_C2_counterexample :
    runSecrets ⟨"ns", "name", "file"⟩
        (fun k => if k = "s2" then .error "network" else .ok (some "{}"))
        (fun _ => some [("user", "a")]) (.ok ()) (fun _ _ _ => true)
        [⟨some "s1", some [⟨some "name", some "n1"⟩, ⟨some "ns", some "default"⟩]⟩,
         ⟨some "s2", some [⟨some "name", some "n2"⟩, ⟨some "ns", some "default"⟩]⟩,
         ⟨some "s3", some [⟨some "name", some "n3"⟩, ⟨some "ns", some "default"⟩]⟩]
      = ([⟨"default", "n1", [("user", "YQ==")], true⟩],
         some (RunErr.propagated "network")) ∧
    exitIsZero (runSecrets ⟨"ns", "name", "file"⟩
        (fun k => if k = "s2" then .error "network" else .ok (some "{}"))
        (fun _ => some [("user", "a")]) (.ok ()) (fun _ _ _ => true)
        [⟨some "s1", some [⟨some "name", some "n1"⟩, ⟨some "ns", some "default"⟩]⟩,
         ⟨some "s2", some [⟨some "name", some "n2"⟩, ⟨some "ns", some "default"⟩]⟩,
         ⟨some "s3", some [⟨some "name", some "n3"⟩, ⟨some "ns", some "default"⟩]⟩])
      = false := by decide

/-- **C2** (corrected): a fetch failure on one secret aborts the run right
there with a non-zero outcome: the apply events of the secrets before it
stand, but the failing secret and every later one produce nothing. -/
theorem claim_C2_fetch_aborts (args : Args)
    (f : String → Except String (Option String))
    (p : String → Option (List (String × String))) (t : Except String Unit)
    (a : String → String → List (String × String) → Bool)
    (pre : List SecretListEntry) (s : SecretListEntry)
    (rest : List SecretListEntry) (key n e : String) (l : List String)
    (hpre : (runSecrets args f p t a pre).2 = none)
    (hname : s.name = some key)
    (hn : get_name_from_aws_secret s args.secret_name_tag = .ok n)
    (hl : get_namespaces_from_aws_secret s args.namespace_tag = .ok l)
    (hfetch : f key = .error e) :
    runSecrets args f p t a (pre ++ s :: rest)
      = ((runSecrets args f p t a pre).1, some (RunErr.propagated e)) := by
  rw [runSecrets_append args f p t a pre (s :: rest) hpre,
    runSecrets_abort_head args f p t a s rest _
      (processSecretPre_fetch_error args f p t s key n e l hname hn hl hfetch)]
  simp

/-- Witness for the corrected C2: prefix `[s1]` applied, fetch fails on
`s2`, `s3` dropped. -/
theorem claim_C2_witness :
    runSecrets ⟨"ns", "name", "file"⟩
        (fun k => if k = "w2" then .error "network" else .ok (some "{}"))
        (fun _ => some [("user", "a")]) (.ok ()) (fun _ _ _ => true)
        ([⟨some "w1", some [⟨some "name", some "n1"⟩, ⟨some "ns", some "default"⟩]⟩] ++
         ⟨some "w2", some [⟨some "name", some "n2"⟩, ⟨some "ns", some "default"⟩]⟩ ::
         [⟨some "w3", some [⟨some "name", some "n3"⟩, ⟨some "ns", some "default"⟩]⟩])
      = ((runSecrets ⟨"ns", "name", "file"⟩
          (fun k => if k = "w2" then .error "network" else .ok (some "{}"))
          (fun _ => some [("user", "a")]) (.ok ()) (fun _ _ _ => true)
          [⟨some "w1", some [⟨some "name", some "n1"⟩, ⟨some "ns", some "default"⟩]⟩]).1,
         some (RunErr.propagated "network")) :=
  claim_C2_fetch_aborts ⟨"ns", "name", "file"⟩
    (fun k => if k = "w2" then .error "network" else .ok (some "{}"))
    (fun _ => some [("user", "a")]) (.ok ()) (fun _ _ _ => true)
    [⟨some "w1", some [⟨some "name", some "n1"⟩, ⟨some "ns", some "default"⟩]⟩]
    ⟨some "w2", some [⟨some "name", some "n2"⟩, ⟨some "ns", some "default"⟩]⟩
    [⟨some "w3", some [⟨some "name", some "n3"⟩, ⟨some "ns", some "default"⟩]⟩]
    "w2" "n2" "network" ["default"] (by decide) rfl rfl rfl rfl

/-- **C3** is false on the code: a payload that does not parse as a JSON
object of strings hits the `unwrap` on `serde_json::from_str` and panics,
aborting the whole run.  Here the first secret's payload is malformed and
the second, fully well-formed, secret is never processed. -/
theorem claim_C3_counterexample :
    runSecrets ⟨"ns", "name", "file"⟩
        (fun k => .ok (some (if k = "s1" then "notjson" else "{}")))
        (fun str => if str = "notjson" then none else some [])
        (.ok ()) (fun _ _ _ => true)
        [⟨some "s1", some [⟨some "name", some "n1"⟩, ⟨some "ns", some "default"⟩]⟩,
         ⟨some "s2", some [⟨some "name", some "n2"⟩, ⟨some "ns", some "default"⟩]⟩]
      = ([], some RunErr.panicked) := by decide

/-- **C3** (corrected): a malformed payload on one secret panics and aborts
the run right there: earlier secrets' applies stand, the failing secret and
every later one produce nothing, and the outcome is a panic, not a scoped
`MalformedPayload`. -/
theorem claim_C3_malformed_aborts (args : Args)
    (f : String → Except String (Option String))
    (p : String → Option (List (String × String))) (t : Except String Unit)
    (a : String → String → List (String × String) → Bool)
    (pre : List SecretListEntry) (s : SecretListEntry)
    (rest : List SecretListEntry) (key n payload : String) (l : List String)
    (hpre : (runSecrets args f p t a pre).2 = none)
    (hname : s.name = some key)
    (hn : get_name_from_aws_secret s args.secret_name_tag = .ok n)
    (hl : get_namespaces_from_aws_secret s args.namespace_tag = .ok l)
    (hfetch : f key = .ok (some payload))
    (hparse : p payload = none) :
    runSecrets args f p t a (pre ++ s :: rest)
      = ((runSecrets args f p t a pre).1, some RunErr.panicked) := by
  rw [runSecrets_append args f p t a pre (s :: rest) hpre,
    runSecrets_abort_head args f p t a s rest _
      (processSecretPre_parse_error args f p t s key n payload l hname hn hl hfetch hparse)]
  simp

/-- Witness for the corrected C3 at a concrete two-secret run with an empty
prefix. -/
theorem claim_C3_witness :
    runSecrets ⟨"ns", "name", "file"⟩
        (fun k => .ok (some (if k = "w1" then "notjson" else "{}")))
        (fun str => if str = "notjson" then none else some [])
        (.ok ()) (fun _ _ _ => true)
        ([] ++ ⟨some "w1", some [⟨some "name", some "n1"⟩, ⟨some "ns", some "default"⟩]⟩ ::
         [⟨some "w2", some [⟨some "name", some "n2"⟩, ⟨some "ns", some "default"⟩]⟩])
      = ((runSecrets ⟨"ns", "name", "file"⟩
          (fun k => .ok (some (if k = "w1" then "notjson" else "{}")))
          (fun str => if str = "notjson" then none else some [])
          (.ok ()) (fun _ _ _ => true) []).1, some RunErr.panicked) :=
  claim_C3_malformed_aborts ⟨"ns", "name", "file"⟩
    (fun k => .ok (some (if k = "w1" then "notjson" else "{}")))
    (fun str => if str = "notjson" then none else some [])
    (.ok ()) (fun _ _ _ => true) []
    ⟨some "w1", some [⟨some "name", some "n1"⟩, ⟨some "ns", some "default"⟩]⟩
    [⟨some "w2", some [⟨some "name", some "n2"⟩, ⟨some "ns", some "default"⟩]⟩]
    "w1" "n1" "notjson" ["default"] rfl rfl rfl rfl rfl rfl

/-- **C6** is false on the code for payload values containing a newline:
the blob for payload `{"k": "a\nb"}` decodes and line-splits into the two
lines `"k=a"` and `"b"`, whose set is not the entry set `{"k=a\nb"}`. -/
theorem claim_C6_counterexample :
    create_filesecret_from_aws_secret [("k", "a\nb")] "f"
      = [("f", b64encodeStr (filesecretBlob [("k", "a\nb")]))] ∧
    filesecretBlob [("k", "a\nb")] = "k=a\nb\n" ∧
    b64decodeStrBytes (b64encodeStr "k=a\nb\n") = some (strBytes "k=a\nb\n") ∧
    byteLines (strBytes "k=a\nb\n") = [strBytes "k=a", strBytes "b"] ∧
    ¬ (∀ l ∈ byteLines (strBytes "k=a\nb\n"), l ∈ [entryLineBytes ("k", "a\nb")]) := by
  decide

/-- **C6** (corrected): file-secret mode always returns the single-entry
map from the filename to the base64 of the `key=value\n` concatenation; and
when no key or value contains a newline byte, base64-decoding the blob and
splitting it into newline-delimited lines (the terminating newline yielding
no extra empty line) gives back exactly the `key=value` entry lines, in
iteration order. -/
theorem claim_C6_filesecret (m : List (String × String)) (filename : String)
    (h : ∀ kv ∈ m, 10 ∉ strBytes kv.1 ∧ 10 ∉ strBytes kv.2) :
    create_filesecret_from_aws_secret m filename
      = [(filename, b64encodeStr (filesecretBlob m))] ∧
    b64decodeStrBytes (b64encodeStr (filesecretBlob m))
      = some (strBytes (filesecretBlob m)) ∧
    byteLines (strBytes (filesecretBlob m)) = m.map entryLineBytes := by
  refine ⟨rfl, b64decodeStrBytes_encode _, ?_⟩
  rw [strBytes_filesecretBlob]
  refine byteLines_flatten _ ?_
  intro l hl
  simp only [List.mem_map] at hl
  obtain ⟨kv, hkv, rfl⟩ := hl
  have hkv10 := h kv hkv
  simp [entryLineBytes, hkv10.1, hkv10.2]

/-- Witness for the corrected C6 at the two-entry payload of the spec's
end-to-end scenario. -/
theorem claim_C6_witness :
    b64encodeStr (filesecretBlob [("user", "a"), ("pass", "b")])
        = "dXNlcj1hCnBhc3M9Ygo=" ∧
    byteLines (strBytes (filesecretBlob [("user", "a"), ("pass", "b")]))
      = [("user", "a"), ("pass", "b")].map entryLineBytes :=
  ⟨by decide,
   (claim_C6_filesecret [("user", "a"), ("pass", "b")] "env" (by decide)).2.2⟩
